import Mathlib

/-!
Verification of the FIFA data-cleaning pipeline
(`src/preprocesamiento/limpieza_datos.py`).

The pipeline is embedded shallowly: a `Dataset` is a pair of lists of named
numeric / categorical columns, a column is a list of optional cell values
(`none` models a pandas null / NaN), numbers are `ℚ` (the source operates on
floats but every operation it performs — medians, quantiles with linear
interpolation, linear rescaling, clipping — is exact rational arithmetic on
the inputs the claims are about).  Each numbered stage of
`limpiar_datos_fifa` becomes a Lean function; Python exceptions are modelled
with `Except`.
-/

namespace Fifa

/-- Cell value of a pandas object column that may hold numbers or strings:
used to model `inferir_posicion`, whose `row` can expose both numeric
ratings and text columns, and where comparing a string with `50` raises a
`TypeError`. -/
inductive Valor where
  | num (q : ℚ)
  | txt (s : String)
deriving DecidableEq, Repr

/-- One row of the merged table, as `inferir_posicion` sees it: an
association list from column name to an optional cell (`none` = NaN).
`row.get(attr, 0)` is present iff the name occurs; missing / null cells are
skipped by the guards in the source. -/
abbrev Row := List (String × Option Valor)

deriving instance DecidableEq for Except

/-- Insertion step of the sort used to model pandas order-based
aggregations (median, quantile, sorted mode candidates). -/
def insertar {α : Type} [LinearOrder α] (x : α) : List α → List α
  | [] => [x]
  | y :: ys => if x ≤ y then x :: y :: ys else y :: insertar x ys

/-- Insertion sort (ascending), total on any linearly ordered cell type. -/
def ordenar {α : Type} [LinearOrder α] : List α → List α
  | [] => []
  | x :: xs => insertar x (ordenar xs)

theorem perm_insertar {α : Type} [LinearOrder α] (x : α) :
    ∀ l : List α, List.Perm (insertar x l) (x :: l) := by
  intro l
  induction l with
  | nil => simp [insertar]
  | cons y ys ih =>
    by_cases h : x ≤ y
    · simp [insertar, h]
    · simp only [insertar, if_neg h]
      exact (ih.cons y).trans (List.Perm.swap x y ys)

theorem perm_ordenar {α : Type} [LinearOrder α] :
    ∀ l : List α, List.Perm (ordenar l) l := by
  intro l
  induction l with
  | nil => simp [ordenar]
  | cons x xs ih => exact (perm_insertar x (ordenar xs)).trans (ih.cons x)

/-- `Series.median()` (skipna done by the caller): sort, take the middle
element, or the mean of the two middle elements; `none` on an empty list
(pandas returns NaN there). -/
def mediana? (xs : List ℚ) : Option ℚ :=
  let s := ordenar xs
  let n := s.length
  if n = 0 then none
  else if n % 2 = 1 then some (s.getD (n / 2) 0)
  else some ((s.getD (n / 2 - 1) 0 + s.getD (n / 2) 0) / 2)

theorem mediana_isSome {xs : List ℚ} (h : xs ≠ []) : (mediana? xs).isSome := by
  have hlen : (ordenar xs).length = xs.length := (perm_ordenar xs).length_eq
  have hne : (ordenar xs).length ≠ 0 := by
    rw [hlen]
    exact fun h0 => h (List.length_eq_zero.mp h0)
  unfold mediana?
  simp only [if_neg hne]
  split <;> simp

/-- `Series.quantile(q)` with the pandas default linear interpolation:
for the sorted values `s`, position `q * (n - 1)` is split into floor `f`
and fraction `g`, giving `s[f] + g * (s[f+1] - s[f])`.  The caller passes a
NaN-free list; on an empty list the source would produce NaN, which (as it
is only ever compared via `IQR > 0`) is modelled by `0`. -/
def cuantil (xs : List ℚ) (q : ℚ) : ℚ :=
  let s := ordenar xs
  let n := s.length
  if n = 0 then 0
  else
    let pos : ℚ := q * ((n - 1 : ℕ) : ℚ)
    let f : ℕ := (Int.floor pos).toNat
    let g : ℚ := pos - (f : ℚ)
    s.getD f 0 + g * (s.getD (f + 1) (s.getD f 0) - s.getD f 0)

/-- `Series.min()` over the non-null values (`none` on an all-null column). -/
def minimo_lista {α : Type} [LinearOrder α] : List α → Option α
  | [] => none
  | [x] => some x
  | x :: y :: resto => (minimo_lista (y :: resto)).map (fun m => min x m)

/-- `Series.max()` over the non-null values (`none` on an all-null column). -/
def maximo_lista {α : Type} [LinearOrder α] : List α → Option α
  | [] => none
  | [x] => some x
  | x :: y :: resto => (maximo_lista (y :: resto)).map (fun m => max x m)

theorem minimo_lista_le {α : Type} [LinearOrder α] :
    ∀ {xs : List α} {m : α}, minimo_lista xs = some m → ∀ y ∈ xs, m ≤ y := by
  intro xs
  induction xs with
  | nil => intro m h; simp [minimo_lista] at h
  | cons x resto ih =>
    intro m h y hy
    cases resto with
    | nil =>
      simp [minimo_lista] at h
      simp at hy
      simp [hy, h]
    | cons z zs =>
      simp only [minimo_lista, Option.map_eq_some'] at h
      obtain ⟨m', hm', rfl⟩ := h
      rcases List.mem_cons.mp hy with rfl | hy'
      · exact min_le_left _ _
      · exact le_trans (min_le_right _ _) (ih hm' y hy')

theorem le_maximo_lista {α : Type} [LinearOrder α] :
    ∀ {xs : List α} {m : α}, maximo_lista xs = some m → ∀ y ∈ xs, y ≤ m := by
  intro xs
  induction xs with
  | nil => intro m h; simp [maximo_lista] at h
  | cons x resto ih =>
    intro m h y hy
    cases resto with
    | nil =>
      simp [maximo_lista] at h
      simp at hy
      simp [hy, h]
    | cons z zs =>
      simp only [maximo_lista, Option.map_eq_some'] at h
      obtain ⟨m', hm', rfl⟩ := h
      rcases List.mem_cons.mp hy with rfl | hy'
      · exact le_max_left _ _
      · exact le_trans (ih hm' y hy') (le_max_right _ _)

theorem minimo_lista_mem {α : Type} [LinearOrder α] :
    ∀ {xs : List α} {m : α}, minimo_lista xs = some m → m ∈ xs := by
  intro xs
  induction xs with
  | nil => intro m h; simp [minimo_lista] at h
  | cons x resto ih =>
    intro m h
    cases resto with
    | nil => simp [minimo_lista] at h; simp [h]
    | cons z zs =>
      simp only [minimo_lista, Option.map_eq_some'] at h
      obtain ⟨m', hm', rfl⟩ := h
      rcases le_total x m' with hle | hle
      · simp [min_eq_left hle]
      · rw [min_eq_right hle]
        exact List.mem_cons_of_mem _ (ih hm')

theorem maximo_lista_mem {α : Type} [LinearOrder α] :
    ∀ {xs : List α} {m : α}, maximo_lista xs = some m → m ∈ xs := by
  intro xs
  induction xs with
  | nil => intro m h; simp [maximo_lista] at h
  | cons x resto ih =>
    intro m h
    cases resto with
    | nil => simp [maximo_lista] at h; simp [h]
    | cons z zs =>
      simp only [maximo_lista, Option.map_eq_some'] at h
      obtain ⟨m', hm', rfl⟩ := h
      rcases le_total m' x with hle | hle
      · simp [max_eq_left hle]
      · rw [max_eq_right hle]
        exact List.mem_cons_of_mem _ (ih hm')

theorem minimo_lista_ne_nil {α : Type} [LinearOrder α] {xs : List α} {m : α}
    (h : minimo_lista xs = some m) : xs ≠ [] := by
  intro h0
  subst h0
  simp [minimo_lista] at h

/-! ### Stage 2: `inferir_posicion` -/

/-- The five goalkeeper attributes checked first by `inferir_posicion`. -/
def gk_atributos : List String :=
  ["gk_diving", "gk_handling", "gk_kicking", "gk_positioning", "gk_reflexes"]

def atributos_defensa : List String :=
  ["marking", "standing_tackle", "sliding_tackle", "interceptions"]

def atributos_medio : List String :=
  ["vision", "short_passing", "long_passing", "ball_control"]

def atributos_ataque : List String :=
  ["finishing", "shot_power", "long_shots", "positioning"]

/-- The goalkeeper test
`any(pd.notnull(row.get(attr, 0)) and row.get(attr, 0) > 50 for attr in gk_attrs if attr in row)`:
attributes absent from the row are skipped by the `if attr in row` filter,
null cells fail `pd.notnull` (the `and` short-circuits, so no comparison
happens), a numeric cell is compared with 50, and a text cell reaches
`value > 50`, which raises a `TypeError` (`.error ()`).  `any` stops at the
first `True`, so an error is raised only if no earlier attribute passed. -/
def detectar_portero : List String → Row → Except Unit Bool
  | [], _ => .ok false
  | a :: resto, r =>
    match List.lookup a r with
    | none => detectar_portero resto r
    | some none => detectar_portero resto r
    | some (some (Valor.num q)) =>
        if 50 < q then .ok true else detectar_portero resto r
    | some (some (Valor.txt _)) => .error ()

/-- The list comprehension inside `promedio_atributos`: the values of the
attributes that are present in the row and non-null, in attribute order. -/
def valores_presentes (r : Row) (attrs : List String) : List Valor :=
  attrs.filterMap fun a =>
    match List.lookup a r with
    | some (some v) => some v
    | _ => none

/-- `promedio_atributos`: mean of the present non-null values, `0` when the
list is empty.  `pd.notnull` lets strings through, and `np.mean` over a list
containing a string raises (`.error ()`). -/
def promedio_atributos (r : Row) (attrs : List String) : Except Unit ℚ :=
  let vs := valores_presentes r attrs
  if vs.any (fun v => match v with | Valor.txt _ => true | _ => false) then
    .error ()
  else
    let qs := vs.filterMap fun v => match v with | Valor.num q => some q | _ => none
    if qs.isEmpty then .ok 0 else .ok (qs.sum / (qs.length : ℚ))

/-- The body of the `try` block of `inferir_posicion`: goalkeeper check,
then the three group averages, then the strict-dominance `if`/`elif` chain
ending in `Versatil`.  Any raised error propagates to the handler. -/
def cuerpo_inferir (r : Row) : Except Unit String :=
  match detectar_portero gk_atributos r with
  | .error e => .error e
  | .ok true => .ok "Portero"
  | .ok false =>
    match promedio_atributos r atributos_defensa with
    | .error e => .error e
    | .ok score_def =>
      match promedio_atributos r atributos_medio with
      | .error e => .error e
      | .ok score_med =>
        match promedio_atributos r atributos_ataque with
        | .error e => .error e
        | .ok score_ataq =>
          .ok (if max score_def score_med < score_ataq then "Delantero"
               else if max score_def score_ataq < score_med then "Mediocampista"
               else if max score_med score_ataq < score_def then "Defensa"
               else "Versatil")

/-- `inferir_posicion`: the bare `except:` clause turns any error raised in
the body into the label `Desconocido`. -/
def inferir_posicion (r : Row) : String :=
  match cuerpo_inferir r with
  | .ok etiqueta => etiqueta
  | .error _ => "Desconocido"

/-- Decidable reading of "this goalkeeper attribute is absent, null or
numeric in the row" (i.e. not a text cell). -/
def gk_num_o_nulo (r : Row) (a : String) : Bool :=
  match List.lookup a r with
  | some (some (Valor.txt _)) => false
  | _ => true

/-- Decidable reading of "this attribute is present, non-null, numeric and
strictly above the 50 threshold". -/
def supera_umbral (r : Row) (a : String) : Bool :=
  match List.lookup a r with
  | some (some (Valor.num q)) => decide (50 < q)
  | _ => false

theorem detectar_portero_de_lista (l : List String) (r : Row)
    (h1 : ∀ a ∈ l, gk_num_o_nulo r a = true)
    (h2 : ∃ a ∈ l, supera_umbral r a = true) :
    detectar_portero l r = .ok true := by
  induction l with
  | nil => simp at h2
  | cons a resto ih =>
    have ha : gk_num_o_nulo r a = true := h1 a (List.mem_cons_self a resto)
    have h1' : ∀ b ∈ resto, gk_num_o_nulo r b = true :=
      fun b hb => h1 b (List.mem_cons_of_mem a hb)
    unfold detectar_portero
    unfold gk_num_o_nulo at ha
    unfold supera_umbral at h2
    rcases h2 with ⟨b, hb, hsup⟩
    rcases List.mem_cons.mp hb with rfl | hbr
    · revert hsup
      cases hv : List.lookup b r with
      | none => simp
      | some o =>
        cases o with
        | none => simp
        | some v =>
          cases v with
          | num q =>
            intro hsup
            simp only [hv]
            simp only [decide_eq_true_eq] at hsup
            simp [hsup]
          | txt s => simp
    · cases hv : List.lookup a r with
      | none => exact ih h1' ⟨b, hbr, by unfold supera_umbral; exact hsup⟩
      | some o =>
        cases o with
        | none => exact ih h1' ⟨b, hbr, by unfold supera_umbral; exact hsup⟩
        | some v =>
          cases v with
          | num q =>
            by_cases hq : 50 < q
            · simp [hq]
            · simp only [if_neg hq]
              exact ih h1' ⟨b, hbr, by unfold supera_umbral; exact hsup⟩
          | txt s =>
            rw [hv] at ha
            simp at ha

/-- C4: a record in which at least one of the five goalkeeper attributes is
present, non-null and strictly greater than 50 is labelled `Portero`,
whatever every other attribute holds (the goalkeeper slots themselves being
numeric-or-null columns). -/
theorem portero_si_supera_umbral (r : Row)
    (h1 : ∀ a ∈ gk_atributos, gk_num_o_nulo r a = true)
    (h2 : ∃ a ∈ gk_atributos, supera_umbral r a = true) :
    inferir_posicion r = "Portero" := by
  unfold inferir_posicion cuerpo_inferir
  rw [detectar_portero_de_lista gk_atributos r h1 h2]

/-- Witness for C4: `gk_reflexes = 80` with every other attribute null or
zero is labelled `Portero`. -/
theorem portero_si_supera_umbral_testigo :
    inferir_posicion
      [("gk_diving", none), ("gk_handling", some (Valor.num 0)),
       ("gk_kicking", none), ("gk_positioning", some (Valor.num 0)),
       ("gk_reflexes", some (Valor.num 80)),
       ("marking", none), ("standing_tackle", some (Valor.num 0)),
       ("sliding_tackle", none), ("interceptions", some (Valor.num 0)),
       ("vision", none), ("short_passing", some (Valor.num 0)),
       ("long_passing", none), ("ball_control", some (Valor.num 0)),
       ("finishing", none), ("shot_power", some (Valor.num 0)),
       ("long_shots", none), ("positioning", some (Valor.num 0))]
      = "Portero" :=
  portero_si_supera_umbral _ (by decide) (by decide)

/-- Evaluation rule for `promedio_atributos` when the present non-null
values are the numeric list `qs`. -/
theorem promedio_atributos_eval (r : Row) (attrs : List String) (qs : List ℚ)
    (h : valores_presentes r attrs = qs.map Valor.num)
    (hne : qs.isEmpty = false) :
    promedio_atributos r attrs = .ok (qs.sum / (qs.length : ℚ)) := by
  have hany : ∀ l : List ℚ,
      ((l.map Valor.num).any fun v =>
        match v with | Valor.txt _ => true | _ => false) = false := by
    intro l
    induction l with
    | nil => rfl
    | cons a t ih => simp [ih]
  have hfm : ∀ l : List ℚ,
      List.filterMap (fun v =>
        match v with | Valor.num q => some q | _ => none) (l.map Valor.num) = l := by
    intro l
    induction l with
    | nil => rfl
    | cons a t ih => simpa using ih
  unfold promedio_atributos
  rw [h]
  simp only [hany, hfm]
  simp [hne]

/-- C5: a record that does not pass the goalkeeper test and whose three
group averages are computed without error is labelled `Versatil` whenever
no average is strictly greater than both others. -/
theorem versatil_si_empate (r : Row) (sd sm sa : ℚ)
    (hgk : detectar_portero gk_atributos r = .ok false)
    (hd : promedio_atributos r atributos_defensa = .ok sd)
    (hm : promedio_atributos r atributos_medio = .ok sm)
    (ha : promedio_atributos r atributos_ataque = .ok sa)
    (h1 : ¬ max sd sm < sa) (h2 : ¬ max sd sa < sm) (h3 : ¬ max sm sa < sd) :
    inferir_posicion r = "Versatil" := by
  unfold inferir_posicion cuerpo_inferir
  rw [hgk, hd, hm, ha]
  simp [h1, h2, h3]

/-- Witness for C5: one attribute per group, all three equal to 40, so all
three group averages are 40 and the record is labelled `Versatil`. -/
theorem versatil_si_empate_testigo :
    inferir_posicion
      [("marking", some (Valor.num 40)), ("vision", some (Valor.num 40)),
       ("finishing", some (Valor.num 40))]
      = "Versatil" :=
  versatil_si_empate _ 40 40 40 (by decide)
    (by rw [promedio_atributos_eval _ _ [40] (by decide) (by decide)]; norm_num)
    (by rw [promedio_atributos_eval _ _ [40] (by decide) (by decide)]; norm_num)
    (by rw [promedio_atributos_eval _ _ [40] (by decide) (by decide)]; norm_num)
    (by decide) (by decide) (by decide)

theorem cuerpo_inferir_casos (r : Row) (s : String)
    (h : cuerpo_inferir r = .ok s) :
    s = "Portero" ∨ s = "Delantero" ∨ s = "Mediocampista" ∨ s = "Defensa" ∨
      s = "Versatil" := by
  unfold cuerpo_inferir at h
  cases hgk : detectar_portero gk_atributos r with
  | error e => rw [hgk] at h; exact absurd h (by simp)
  | ok b =>
    rw [hgk] at h
    cases b with
    | true => left; exact (Except.ok.inj h).symm
    | false =>
      cases hd : promedio_atributos r atributos_defensa with
      | error e => rw [hd] at h; exact absurd h (by simp)
      | ok sd =>
        rw [hd] at h
        cases hm : promedio_atributos r atributos_medio with
        | error e => rw [hm] at h; exact absurd h (by simp)
        | ok sm =>
          rw [hm] at h
          cases hA : promedio_atributos r atributos_ataque with
          | error e => rw [hA] at h; exact absurd h (by simp)
          | ok sa =>
            rw [hA] at h
            right
            have hs := Except.ok.inj h
            split at hs
            · exact Or.inl hs.symm
            · split at hs
              · exact Or.inr (Or.inl hs.symm)
              · split at hs
                · exact Or.inr (Or.inr (Or.inl hs.symm))
                · exact Or.inr (Or.inr (Or.inr hs.symm))

/-- C8: position inference is total — any error raised while evaluating the
decision procedure is caught and yields `Desconocido`, and consequently the
label of every record (and of every label produced for a dataset row) lies
in the closed six-value set. -/
theorem inferencia_total :
    (∀ r : Row,
      inferir_posicion r ∈
        ["Portero", "Delantero", "Mediocampista", "Defensa", "Versatil",
         "Desconocido"]) ∧
    (∀ (r : Row) (e : Unit), cuerpo_inferir r = .error e →
      inferir_posicion r = "Desconocido") := by
  constructor
  · intro r
    unfold inferir_posicion
    cases h : cuerpo_inferir r with
    | error e => simp
    | ok s =>
      rcases cuerpo_inferir_casos r s h with h5 | h5 | h5 | h5 | h5 <;>
        simp [h5]
  · intro r e h
    unfold inferir_posicion
    rw [h]

/-- Witness for C8: a text cell in `gk_diving` makes the comparison with 50
raise, and the record is labelled `Desconocido`. -/
theorem inferencia_total_testigo :
    inferir_posicion [("gk_diving", some (Valor.txt "alto"))] = "Desconocido" :=
  inferencia_total.2 [("gk_diving", some (Valor.txt "alto"))] () (by decide)

/-! ### The Dataset model -/

/-- A numeric column (`select_dtypes(include=[np.number])`): name plus one
optional rational per record, `none` being NaN. -/
structure NumCol where
  name : String
  vals : List (Option ℚ)
deriving DecidableEq, Repr

/-- A categorical/object column (`select_dtypes(include=['object'])`). -/
structure CatCol where
  name : String
  vals : List (Option String)
deriving DecidableEq, Repr

instance : Inhabited NumCol := ⟨⟨"", []⟩⟩

instance : Inhabited CatCol := ⟨⟨"", []⟩⟩

/-- The in-memory table `datos`: its numeric and its categorical columns
(the only two dtype families the pipeline distinguishes). -/
structure Dataset where
  numCols : List NumCol
  catCols : List CatCol
deriving DecidableEq, Repr

/-- Number of records: all columns of a dataframe share one length. -/
def nfilas (d : Dataset) : ℕ :=
  (d.numCols.map (fun c => c.vals.length) ++
    d.catCols.map (fun c => c.vals.length)).foldr max 0

/-- Row `i` of the dataset, as passed to `inferir_posicion` by
`datos.apply(inferir_posicion, axis=1)`. -/
def fila (d : Dataset) (i : ℕ) : Row :=
  d.numCols.map (fun c => (c.name, (c.vals.getD i none).map Valor.num)) ++
    d.catCols.map (fun c => (c.name, (c.vals.getD i none).map Valor.txt))

/-! ### Stage 3: `datos.groupby('posicion_inferida')` imputation -/

/-- The non-null values of a column restricted to the rows of the group
labelled `g` (the series a `groupby(...)[col]` aggregation sees). -/
def valores_grupo {α : Type} : List String → List (Option α) → String → List α
  | _, [], _ => []
  | [], _ :: _, _ => []
  | l :: ls, v :: vs, g =>
    if l = g then
      match v with
      | some x => x :: valores_grupo ls vs g
      | none => valores_grupo ls vs g
    else valores_grupo ls vs g

/-- `fillna` with a per-group aggregate broadcast by `transform`: each cell
keeps its value if non-null, otherwise receives the aggregate of its own
group (`agg` maps a group label to the value `transform` placed there). -/
def paso_grupo {α : Type} (agg : String → Option α) :
    List String → List (Option α) → List (Option α)
  | _, [] => []
  | [], _ :: _ => []
  | l :: ls, v :: vs => (v.orElse fun _ => agg l) :: paso_grupo agg ls vs

/-- `Series.mode()[0]` over the non-null values, `none` if the series is
empty: the value of maximal multiplicity.  pandas resolves ties by sorting
and taking the smallest mode; no claim depends on the tie-break, so the
embedding keeps the first maximal value in first-occurrence order. -/
def moda? (xs : List String) : Option String :=
  xs.dedup.foldl
    (fun mejor c =>
      match mejor with
      | none => some c
      | some b => if xs.count b < xs.count c then some c else mejor)
    none

/-- Numeric imputation of one column (lines 79–86 of the source): if the
column has a null, fill with the per-position median; if nulls remain (a
whole group was null), fill with the column median computed after the
group fill. -/
def imputar_numerica (etiquetas : List String) (vals : List (Option ℚ)) :
    List (Option ℚ) :=
  if vals.any (fun v => v.isNone) then
    let paso1 :=
      paso_grupo (fun g => mediana? (valores_grupo etiquetas vals g))
        etiquetas vals
    if paso1.any (fun v => v.isNone) then
      let m := mediana? (paso1.filterMap id)
      paso1.map fun v => v.orElse fun _ => m
    else paso1
  else vals

/-- Categorical imputation of one column (lines 90–95): the `transform`
lambda itself replaces an undefined group mode by the literal `"Unknown"`,
so the fill value is never null. -/
def imputar_categorica (etiquetas : List String) (vals : List (Option String)) :
    List (Option String) :=
  if vals.any (fun v => v.isNone) then
    paso_grupo
      (fun g => some ((moda? (valores_grupo etiquetas vals g)).getD "Unknown"))
      etiquetas vals
  else vals

/-- The categorical columns the imputation and one-hot stages both skip. -/
def cols_excluidas_cat : List String :=
  ["date", "birthday", "player_name", "posicion_inferida"]

/-- Stage 3, whole dataset: every numeric column is imputed; a categorical
column is imputed only when its name is outside the fixed exclusion list. -/
def tratar_nulos (etiquetas : List String) (d : Dataset) : Dataset :=
  { numCols := d.numCols.map fun c => ⟨c.name, imputar_numerica etiquetas c.vals⟩,
    catCols := d.catCols.map fun c =>
      if c.name ∈ cols_excluidas_cat then c
      else ⟨c.name, imputar_categorica etiquetas c.vals⟩ }

theorem paso_grupo_mem_some {α : Type} (agg : String → Option α) (x : α) :
    ∀ (ls : List String) (vs : List (Option α)),
      ls.length = vs.length → some x ∈ vs →
      some x ∈ paso_grupo agg ls vs := by
  intro ls
  induction ls with
  | nil =>
    intro vs hlen hx
    cases vs with
    | nil => simp at hx
    | cons v vs' => simp at hlen
  | cons l ls' ih =>
    intro vs hlen hx
    cases vs with
    | nil => simp at hx
    | cons v vs' =>
      simp only [List.length_cons, Nat.succ.injEq] at hlen
      rcases List.mem_cons.mp hx with rfl | hx'
      · simp [paso_grupo, Option.orElse]
      · exact List.mem_cons_of_mem _ (ih vs' hlen hx')

theorem paso_grupo_isSome {α : Type} (agg : String → Option α)
    (hagg : ∀ g, (agg g).isSome) :
    ∀ (ls : List String) (vs : List (Option α)),
      ∀ w ∈ paso_grupo agg ls vs, w.isSome := by
  intro ls
  induction ls with
  | nil =>
    intro vs w hw
    cases vs <;> simp [paso_grupo] at hw
  | cons l ls' ih =>
    intro vs w hw
    cases vs with
    | nil => simp [paso_grupo] at hw
    | cons v vs' =>
      rcases List.mem_cons.mp hw with rfl | hw'
      · cases v with
        | none => simpa [Option.orElse] using hagg l
        | some x => simp [Option.orElse]
      · exact ih vs' w hw'

/-- A numeric column with at least one non-null value dataset-wide has no
null left after `imputar_numerica` (the label vector supplied by `groupby`
has one entry per record). -/
theorem imputar_numerica_sin_nulos (etiquetas : List String)
    (vals : List (Option ℚ)) (q : ℚ)
    (hlen : etiquetas.length = vals.length) (hq : some q ∈ vals) :
    ∀ w ∈ imputar_numerica etiquetas vals, w.isSome := by
  intro w hw
  unfold imputar_numerica at hw
  by_cases h0 : vals.any (fun v => v.isNone)
  · rw [if_pos h0] at hw
    set agg := fun g => mediana? (valores_grupo etiquetas vals g) with hagg
    have hmem : some q ∈ paso_grupo agg etiquetas vals :=
      paso_grupo_mem_some agg q etiquetas vals hlen hq
    by_cases h1 : (paso_grupo agg etiquetas vals).any (fun v => v.isNone)
    · rw [if_pos h1] at hw
      rcases List.mem_map.mp hw with ⟨v, _, rfl⟩
      cases v with
      | some x => simp [Option.orElse]
      | none =>
        have hne : (paso_grupo agg etiquetas vals).filterMap id ≠ [] := by
          intro hnil
          have : q ∈ (paso_grupo agg etiquetas vals).filterMap id :=
            List.mem_filterMap.mpr ⟨some q, hmem, rfl⟩
          rw [hnil] at this
          simp at this
        have := mediana_isSome hne
        simpa [Option.orElse] using this
    · rw [if_neg h1] at hw
      have h1' : none ∉ paso_grupo agg etiquetas vals := by simpa using h1
      cases w with
      | none => exact absurd hw h1'
      | some x => simp
  · rw [if_neg h0] at hw
    have h0' : none ∉ vals := by simpa using h0
    cases w with
    | none => exact absurd hw h0'
    | some x => simp

/-- A categorical column processed by `imputar_categorica` never keeps a
null: the fill value is a mode or the literal `"Unknown"`. -/
theorem imputar_categorica_sin_nulos (etiquetas : List String)
    (vals : List (Option String)) :
    ∀ w ∈ imputar_categorica etiquetas vals, w.isSome := by
  intro w hw
  unfold imputar_categorica at hw
  by_cases h0 : vals.any (fun v => v.isNone)
  · rw [if_pos h0] at hw
    exact paso_grupo_isSome _ (fun g => by simp) etiquetas vals w hw
  · rw [if_neg h0] at hw
    have h0' : none ∉ vals := by simpa using h0
    cases w with
    | none => exact absurd hw h0'
    | some x => simp

/-- C1 counterexample: the claim quantifies over every column, but the
imputation loop skips the categorical columns `date`, `birthday`,
`player_name` and `posicion_inferida`.  Here `player_name` has a non-null
value dataset-wide before stage 3 (so the claim promises no null
afterwards), yet the null of record 1 survives the stage untouched. -/
theorem imputacion_contraejemplo :
    some "Juan" ∈
      ((⟨[], [⟨"player_name", [some "Juan", none]⟩]⟩ : Dataset).catCols.getD 0
        default).vals ∧
    none ∈
      ((tratar_nulos ["Versatil", "Versatil"]
          ⟨[], [⟨"player_name", [some "Juan", none]⟩]⟩).catCols.getD 0
        default).vals := by
  constructor
  · decide
  · decide

/-- C1 amended: after stage 3, no null survives in any numeric column that
had at least one non-null value dataset-wide, nor in any categorical column
outside the exclusion list {date, birthday, player_name, posicion_inferida}
(the label vector has one entry per record); the excluded categorical
columns may keep their nulls. -/
theorem imputacion_sin_nulos (etiquetas : List String) (d : Dataset) :
    (∀ i, i < d.numCols.length →
      etiquetas.length = (d.numCols.getD i default).vals.length →
      (∃ q, some q ∈ (d.numCols.getD i default).vals) →
      ∀ w ∈ ((tratar_nulos etiquetas d).numCols.getD i default).vals,
        w.isSome = true) ∧
    (∀ i, i < d.catCols.length →
      ¬ (d.catCols.getD i default).name ∈ cols_excluidas_cat →
      ∀ w ∈ ((tratar_nulos etiquetas d).catCols.getD i default).vals,
        w.isSome = true) := by
  constructor
  · intro i hi hlen hex w hw
    obtain ⟨q, hq⟩ := hex
    have hi' : i < (tratar_nulos etiquetas d).numCols.length := by
      simpa [tratar_nulos] using hi
    rw [List.getD_eq_getElem _ _ hi'] at hw
    simp only [tratar_nulos, List.getElem_map] at hw
    rw [List.getD_eq_getElem _ _ hi] at hlen hq
    exact imputar_numerica_sin_nulos etiquetas _ q hlen hq w hw
  · intro i hi hname w hw
    have hi' : i < (tratar_nulos etiquetas d).catCols.length := by
      simpa [tratar_nulos] using hi
    rw [List.getD_eq_getElem _ _ hi'] at hw
    simp only [tratar_nulos, List.getElem_map] at hw
    rw [List.getD_eq_getElem _ _ hi] at hname
    rw [if_neg hname] at hw
    exact imputar_categorica_sin_nulos etiquetas _ w hw

/-- Witness for the amended C1: a numeric column `[3, null]` and a
categorical column `[null, "right"]` under labels `[Versatil, Versatil]`
come out of stage 3 fully non-null. -/
theorem imputacion_sin_nulos_testigo :
    ((((tratar_nulos ["Versatil", "Versatil"]
        ⟨[⟨"overall_rating", [some 3, none]⟩],
         [⟨"preferred_foot", [none, some "right"]⟩]⟩).numCols.getD 0
        default).vals.getD 1 none).isSome = true) ∧
    ((((tratar_nulos ["Versatil", "Versatil"]
        ⟨[⟨"overall_rating", [some 3, none]⟩],
         [⟨"preferred_foot", [none, some "right"]⟩]⟩).catCols.getD 0
        default).vals.getD 0 none).isSome = true) :=
  ⟨(imputacion_sin_nulos ["Versatil", "Versatil"]
      ⟨[⟨"overall_rating", [some 3, none]⟩],
       [⟨"preferred_foot", [none, some "right"]⟩]⟩).1 0 (by decide) (by decide)
      ⟨3, by decide⟩ _ (by decide),
   (imputacion_sin_nulos ["Versatil", "Versatil"]
      ⟨[⟨"overall_rating", [some 3, none]⟩],
       [⟨"preferred_foot", [none, some "right"]⟩]⟩).2 0 (by decide) (by decide)
      _ (by decide)⟩

/-! ### Stage 6: normalization to the 0–100 range -/

/-- The fixed exclusion list of the normalizer (lines 150–151). -/
def excluir_normalizacion : List String :=
  ["id", "player_fifa_api_id", "player_api_id", "edad_estimada",
   "score_fisico", "score_tecnico", "score_mental"]

/-- One column of stage 6: `min`/`max` ignore nulls; if `max > min` the
column is rescaled by `(x - min) * 100 / (max - min)` (nulls stay null,
arithmetic on NaN gives NaN); if `max == min` the scalar assignment
`datos[columna] = 50` overwrites every cell, nulls included; an all-null
column has NaN min/max, fails both comparisons and is left untouched.
The `except: continue` of the source never fires on numeric data and has no
counterpart here. -/
def normalizar_columna (xs : List (Option ℚ)) : List (Option ℚ) :=
  match minimo_lista (xs.filterMap id), maximo_lista (xs.filterMap id) with
  | some minimo, some maximo =>
    if minimo < maximo then
      xs.map (Option.map fun x => (x - minimo) * 100 / (maximo - minimo))
    else if maximo = minimo then xs.map fun _ => some 50
    else xs
  | _, _ => xs

/-- Stage 6, whole dataset: every numeric column whose name is outside the
exclusion list is normalized independently with its own min/max. -/
def normalizar (d : Dataset) : Dataset :=
  ⟨d.numCols.map fun c =>
      if c.name ∈ excluir_normalizacion then c
      else ⟨c.name, normalizar_columna c.vals⟩,
    d.catCols⟩

theorem minimo_lista_cons_isSome {α : Type} [LinearOrder α] (x : α) :
    ∀ t : List α, (minimo_lista (x :: t)).isSome := by
  intro t
  induction t generalizing x with
  | nil => simp [minimo_lista]
  | cons y t' ih =>
    have := ih y
    cases h : minimo_lista (y :: t') with
    | none => rw [h] at this; simp at this
    | some m => simp [minimo_lista, h]

theorem maximo_lista_cons_isSome {α : Type} [LinearOrder α] (x : α) :
    ∀ t : List α, (maximo_lista (x :: t)).isSome := by
  intro t
  induction t generalizing x with
  | nil => simp [maximo_lista]
  | cons y t' ih =>
    have := ih y
    cases h : maximo_lista (y :: t') with
    | none => rw [h] at this; simp at this
    | some m => simp [maximo_lista, h]

theorem normalizar_columna_acotada (xs : List (Option ℚ)) :
    ∀ z : ℚ, some z ∈ normalizar_columna xs → 0 ≤ z ∧ z ≤ 100 := by
  intro z hz
  unfold normalizar_columna at hz
  cases hmin : minimo_lista (xs.filterMap id) with
  | none =>
    rw [hmin] at hz
    have hmem : z ∈ xs.filterMap id := List.mem_filterMap.mpr ⟨some z, hz, rfl⟩
    cases hcase : xs.filterMap id with
    | nil => rw [hcase] at hmem; simp at hmem
    | cons a t =>
      rw [hcase] at hmin
      have := minimo_lista_cons_isSome a t
      rw [hmin] at this
      simp at this
  | some mn =>
    cases hmax : maximo_lista (xs.filterMap id) with
    | none =>
      rw [hmin, hmax] at hz
      have hmem : z ∈ xs.filterMap id := List.mem_filterMap.mpr ⟨some z, hz, rfl⟩
      cases hcase : xs.filterMap id with
      | nil => rw [hcase] at hmem; simp at hmem
      | cons a t =>
        rw [hcase] at hmax
        have := maximo_lista_cons_isSome a t
        rw [hmax] at this
        simp at this
    | some mx =>
      rw [hmin, hmax] at hz
      simp only [] at hz
      have hle : mn ≤ mx := le_maximo_lista hmax mn (minimo_lista_mem hmin)
      by_cases hlt : mn < mx
      · rw [if_pos hlt] at hz
        rcases List.mem_map.mp hz with ⟨o, ho, hoz⟩
        rcases Option.map_eq_some'.mp hoz with ⟨x, hx, rfl⟩
        subst hx
        have hxmem : x ∈ xs.filterMap id := List.mem_filterMap.mpr ⟨some x, ho, rfl⟩
        have h1 : mn ≤ x := minimo_lista_le hmin x hxmem
        have h2 : x ≤ mx := le_maximo_lista hmax x hxmem
        have hpos : (0:ℚ) < mx - mn := sub_pos.mpr hlt
        constructor
        · apply div_nonneg _ (le_of_lt hpos)
          nlinarith
        · rw [div_le_iff₀ hpos]
          nlinarith
      · rw [if_neg hlt] at hz
        have heq : mx = mn := le_antisymm (not_lt.mp hlt) hle
        rw [if_pos heq] at hz
        rcases List.mem_map.mp hz with ⟨o, _, hoz⟩
        have h50 : z = 50 := Option.some.inj hoz.symm
        rw [h50]
        norm_num

theorem normalizar_columna_constante (xs : List (Option ℚ)) (mn mx : ℚ)
    (hmin : minimo_lista (xs.filterMap id) = some mn)
    (hmax : maximo_lista (xs.filterMap id) = some mx) (heq : mx = mn) :
    ∀ w ∈ normalizar_columna xs, w = some 50 := by
  intro w hw
  unfold normalizar_columna at hw
  rw [hmin, hmax] at hw
  subst heq
  simp only [] at hw
  simp only [if_true] at hw
  rw [if_neg (lt_irrefl mx)] at hw
  rcases List.mem_map.mp hw with ⟨o, _, hoz⟩
  exact hoz.symm

/-- C2: after stage 6, every value of every numeric column whose name is
outside the fixed exclusion list lies in [0, 100]; and a column whose max
equals its min before normalization comes out with every cell exactly 50. -/
theorem normalizacion_en_rango :
    (∀ (d : Dataset) (i : ℕ), i < d.numCols.length →
      ¬ (d.numCols.getD i default).name ∈ excluir_normalizacion →
      ∀ z : ℚ, some z ∈ ((normalizar d).numCols.getD i default).vals →
        0 ≤ z ∧ z ≤ 100) ∧
    (∀ (xs : List (Option ℚ)) (mn mx : ℚ),
      minimo_lista (xs.filterMap id) = some mn →
      maximo_lista (xs.filterMap id) = some mx → mx = mn →
      ∀ w ∈ normalizar_columna xs, w = some 50) := by
  constructor
  · intro d i hi hname z hz
    have hi' : i < (normalizar d).numCols.length := by
      simpa [normalizar] using hi
    rw [List.getD_eq_getElem _ _ hi'] at hz
    simp only [normalizar, List.getElem_map] at hz
    rw [List.getD_eq_getElem _ _ hi] at hname
    rw [if_neg hname] at hz
    exact normalizar_columna_acotada _ z hz
  · exact normalizar_columna_constante

/-- Witness for C2: the column `crossing = [1, 3]` is rescaled to `[0, 100]`
(both values in range), and the constant column `[7, 7]` collapses to 50. -/
theorem normalizacion_en_rango_testigo :
    some (100:ℚ) ∈
      ((normalizar ⟨[⟨"crossing", [some 1, some 3]⟩], []⟩).numCols.getD 0
        default).vals ∧
    (0 ≤ (100:ℚ) ∧ (100:ℚ) ≤ 100) ∧
    (∀ w ∈ normalizar_columna [some (7:ℚ), some 7], w = some 50) := by
  have hcol : normalizar ⟨[⟨"crossing", [some 1, some 3]⟩], []⟩ =
      ⟨[⟨"crossing", [some 0, some 100]⟩], []⟩ := by
    norm_num [normalizar, normalizar_columna, minimo_lista, maximo_lista,
      excluir_normalizacion]
    decide
  have hmem : some (100:ℚ) ∈
      ((normalizar ⟨[⟨"crossing", [some 1, some 3]⟩], []⟩).numCols.getD 0
        default).vals := by
    rw [hcol]; decide
  refine ⟨hmem, normalizacion_en_rango.1 _ 0 (by decide) (by decide) 100 hmem,
    normalizacion_en_rango.2 [some (7:ℚ), some 7] 7 7 ?min7 ?max7 rfl⟩
  case min7 => norm_num [minimo_lista]
  case max7 => norm_num [maximo_lista]

/-! ### Stage 5: one-hot encoding -/

/-- The distinct non-null values of a categorical column, as
`pd.get_dummies` enumerates them (nulls dropped since `dummy_na` defaults
to `False`).  pandas lists the categories in sorted order; no claim depends
on the enumeration order, so the embedding keeps first-occurrence order. -/
def valores_distintos (xs : List (Option String)) : List String :=
  (xs.filterMap id).dedup

/-- `Series.nunique()`: number of distinct non-null values. -/
def nunique (xs : List (Option String)) : ℕ := (valores_distintos xs).length

/-- `pd.get_dummies(..., prefix=col, dtype=int)` on one column: one 0/1
integer indicator column per distinct observed value, named by the source
column name, the default separator and the value; a null cell gets 0 in
every indicator. -/
def get_dummies (nombre : String) (xs : List (Option String)) :
    List (String × List ℕ) :=
  (valores_distintos xs).map fun v =>
    (nombre ++ "_" ++ v, xs.map fun x => if x = some v then 1 else 0)

/-- The selection test of lines 134–136: an object column outside the fixed
exclusion list with at most 15 distinct values. -/
def es_seleccionada (c : CatCol) : Bool :=
  !(cols_excluidas_cat.contains c.name) && decide (nunique c.vals ≤ 15)

/-- The columns collected into `columnas_categoricas_onehot`. -/
def seleccion_onehot (d : Dataset) : List CatCol :=
  d.catCols.filter es_seleccionada

/-- Stage 5, whole dataset: if any column was selected, append the encoded
indicator columns (integer, hence numeric) and drop the selected originals;
other categorical columns survive untouched. -/
def aplicar_onehot (d : Dataset) : Dataset :=
  if (seleccion_onehot d).isEmpty then d
  else
    ⟨d.numCols ++ (seleccion_onehot d).flatMap fun c =>
        (get_dummies c.name c.vals).map fun p =>
          ⟨p.1, p.2.map fun n => some (n : ℚ)⟩,
      d.catCols.filter fun c => !(es_seleccionada c)⟩

theorem suma_indicador (w : String) :
    ∀ l : List String,
      (l.map fun v => if (some w : Option String) = some v then (1:ℕ) else 0).sum
        = l.count w := by
  intro l
  induction l with
  | nil => simp
  | cons v t ih =>
    simp only [List.map_cons, List.sum_cons, List.count_cons, ih]
    by_cases hv : w = v
    · subst hv; simp [Nat.add_comm]
    · simp [hv, Ne.symm hv]

theorem count_valores_distintos (xs : List (Option String)) (w : String)
    (hw : some w ∈ xs) : (valores_distintos xs).count w = 1 := by
  have hmem : w ∈ (xs.filterMap id).dedup :=
    List.mem_dedup.mpr (List.mem_filterMap.mpr ⟨some w, hw, rfl⟩)
  exact List.count_eq_one_of_mem (List.nodup_dedup _) hmem

/-- C6: the encoder selects exactly the categorical columns outside
{date, birthday, player_name, posicion_inferida} with at most 15 distinct
values; each selected column becomes one indicator column per distinct
observed value (so 3 distinct values give exactly 3 columns), every
indicator cell is the integer 0 or 1, indicator names are the source name
joined to the value, the indicators of one source column sum to 1 on every
row whose original value is non-null, a column with more than 15 distinct
values survives the stage untouched, and the selected originals are
dropped. -/
theorem codificacion_onehot (d : Dataset) (nombre : String)
    (xs : List (Option String)) :
    (∀ c, c ∈ seleccion_onehot d ↔
      (c ∈ d.catCols ∧ ¬ c.name ∈ cols_excluidas_cat ∧ nunique c.vals ≤ 15)) ∧
    (get_dummies nombre xs).length = nunique xs ∧
    (∀ p ∈ get_dummies nombre xs, ∀ n ∈ p.2, n = 0 ∨ n = 1) ∧
    (∀ p ∈ get_dummies nombre xs, ∃ v ∈ valores_distintos xs,
      p.1 = nombre ++ "_" ++ v) ∧
    (∀ i : ℕ, ∀ hi : i < xs.length, (xs.get ⟨i, hi⟩).isSome →
      ((get_dummies nombre xs).map fun p => p.2.getD i 0).sum = 1) ∧
    (∀ c ∈ d.catCols, 15 < nunique c.vals → c ∈ (aplicar_onehot d).catCols) ∧
    (∀ c ∈ seleccion_onehot d, ¬ c ∈ (aplicar_onehot d).catCols) := by
  refine ⟨?sel, ?len, ?vals01, ?nombres, ?suma, ?intacta, ?borrada⟩
  case sel =>
    intro c
    simp [seleccion_onehot, List.mem_filter, es_seleccionada, and_assoc]
  case len => simp [get_dummies, nunique]
  case vals01 =>
    intro p hp n hn
    rcases List.mem_map.mp hp with ⟨v, _, rfl⟩
    rcases List.mem_map.mp hn with ⟨x, _, rfl⟩
    by_cases h : x = some v
    · simp [h]
    · simp [h]
  case nombres =>
    intro p hp
    rcases List.mem_map.mp hp with ⟨v, hv, rfl⟩
    exact ⟨v, hv, rfl⟩
  case suma =>
    intro i hi hsome
    obtain ⟨w, hw⟩ := Option.isSome_iff_exists.mp hsome
    have hwm : some w ∈ xs := hw ▸ List.get_mem xs i hi
    have hgd : ((get_dummies nombre xs).map fun p => p.2.getD i 0) =
        (valores_distintos xs).map fun v =>
          (xs.map fun x => if x = some v then (1:ℕ) else 0).getD i 0 := by
      simp [get_dummies, List.map_map, Function.comp]
    rw [hgd]
    have hptw : ∀ v ∈ valores_distintos xs,
        (xs.map fun x => if x = some v then (1:ℕ) else 0).getD i 0 =
          if (some w : Option String) = some v then (1:ℕ) else 0 := by
      intro v _
      have hi' : i < (xs.map fun x => if x = some v then (1:ℕ) else 0).length := by
        simpa using hi
      rw [List.getD_eq_getElem _ _ hi', List.getElem_map]
      have : xs[i] = some w := by
        rw [← hw]; simp [List.get_eq_getElem]
      rw [this]
    rw [List.map_congr_left hptw, suma_indicador w,
      count_valores_distintos xs w hwm]
  case intacta =>
    intro c hc hgrande
    have hns : es_seleccionada c = false := by
      simp [es_seleccionada]
      omega
    unfold aplicar_onehot
    by_cases hvacia : (seleccion_onehot d).isEmpty
    · rw [if_pos hvacia]; exact hc
    · rw [if_neg hvacia]
      exact List.mem_filter.mpr ⟨hc, by simp [hns]⟩
  case borrada =>
    intro c hc
    have hsel : es_seleccionada c = true := (List.mem_filter.mp hc).2
    have hne : ¬ (seleccion_onehot d).isEmpty := by
      intro hvacia
      rw [List.isEmpty_iff] at hvacia
      rw [hvacia] at hc
      simp at hc
    unfold aplicar_onehot
    rw [if_neg hne]
    intro hmem
    have := (List.mem_filter.mp hmem).2
    rw [hsel] at this
    simp at this

/-- Witness for C6 at a concrete dataset: `pie` (3 distinct values over 5
records, one null) is selected and produces exactly 3 indicator columns
whose row 0 sums to 1; the 16-value column `equipo` stays untouched. -/
theorem codificacion_onehot_testigo :
    (⟨"pie", [some "L", some "R", none, some "L", some "Z"]⟩ : CatCol) ∈
      seleccion_onehot
        ⟨[], [⟨"pie", [some "L", some "R", none, some "L", some "Z"]⟩,
              ⟨"equipo", (List.range 16).map fun n => some (toString n)⟩]⟩ ∧
    (get_dummies "pie" [some "L", some "R", none, some "L", some "Z"]).length
      = 3 ∧
    ((get_dummies "pie"
        [some "L", some "R", none, some "L", some "Z"]).map
          fun p => p.2.getD 0 0).sum = 1 ∧
    (⟨"equipo", (List.range 16).map fun n => some (toString n)⟩ : CatCol) ∈
      (aplicar_onehot
        ⟨[], [⟨"pie", [some "L", some "R", none, some "L", some "Z"]⟩,
              ⟨"equipo", (List.range 16).map fun n => some (toString n)⟩]⟩).catCols := by
  refine ⟨?_, ?_, ?_, ?_⟩
  · exact (codificacion_onehot
      ⟨[], [⟨"pie", [some "L", some "R", none, some "L", some "Z"]⟩,
            ⟨"equipo", (List.range 16).map fun n => some (toString n)⟩]⟩
      "pie" [some "L", some "R", none, some "L", some "Z"]).1 _ |>.mpr
      (by refine ⟨by decide, by decide, by decide⟩)
  · rw [(codificacion_onehot ⟨[], []⟩ "pie"
      [some "L", some "R", none, some "L", some "Z"]).2.1]
    decide
  · exact (codificacion_onehot ⟨[], []⟩ "pie"
      [some "L", some "R", none, some "L", some "Z"]).2.2.2.2.1 0 (by decide)
      (by decide)
  · exact (codificacion_onehot
      ⟨[], [⟨"pie", [some "L", some "R", none, some "L", some "Z"]⟩,
            ⟨"equipo", (List.range 16).map fun n => some (toString n)⟩]⟩
      "pie" [some "L", some "R", none, some "L", some "Z"]).2.2.2.2.2.1 _
      (by decide) (by decide)

/-- C10: a row whose value in an encoded column is null gets the integer 0
in every indicator column produced for that column (their row-sum is 0),
and no indicator column is created for the null itself — every indicator
stems from a distinct non-null observed value. -/
theorem onehot_fila_nula (nombre : String) (xs : List (Option String))
    (i : ℕ) (hi : i < xs.length) (hn : xs.get ⟨i, hi⟩ = none) :
    (∀ p ∈ get_dummies nombre xs, p.2.getD i 0 = 0) ∧
    ((get_dummies nombre xs).map fun p => p.2.getD i 0).sum = 0 ∧
    (∀ p ∈ get_dummies nombre xs, ∃ v ∈ valores_distintos xs,
      p.1 = nombre ++ "_" ++ v) := by
  have hcero : ∀ p ∈ get_dummies nombre xs, p.2.getD i 0 = 0 := by
    intro p hp
    rcases List.mem_map.mp hp with ⟨v, _, rfl⟩
    have hi' : i < (xs.map fun x => if x = some v then (1:ℕ) else 0).length := by
      simpa using hi
    rw [List.getD_eq_getElem _ _ hi', List.getElem_map]
    have : xs[i] = none := by rw [← hn]; simp [List.get_eq_getElem]
    rw [this]
    simp
  refine ⟨hcero, ?_, ?_⟩
  · apply List.sum_eq_zero
    intro n hn'
    rcases List.mem_map.mp hn' with ⟨p, hp, rfl⟩
    exact hcero p hp
  · intro p hp
    rcases List.mem_map.mp hp with ⟨v, hv, rfl⟩
    exact ⟨v, hv, rfl⟩

/-- Witness for C10: in `[some "L", none]` the null row 1 has indicator 0
and row-sum 0 over the single indicator column. -/
theorem onehot_fila_nula_testigo :
    ((get_dummies "pie" [some "L", none]).map fun p => p.2.getD 1 0).sum = 0 :=
  (onehot_fila_nula "pie" [some "L", none] 1 (by decide) (by decide)).2.1

theorem minimo_lista_isSome_of_ne_nil {α : Type} [LinearOrder α]
    {l : List α} (h : l ≠ []) : (minimo_lista l).isSome := by
  cases l with
  | nil => exact absurd rfl h
  | cons x t => exact minimo_lista_cons_isSome x t

theorem maximo_lista_isSome_of_ne_nil {α : Type} [LinearOrder α]
    {l : List α} (h : l ≠ []) : (maximo_lista l).isSome := by
  cases l with
  | nil => exact absurd rfl h
  | cons x t => exact maximo_lista_cons_isSome x t

theorem filterMap_id_map_some_cast (ws : List ℕ) :
    (ws.map fun n : ℕ => some (n : ℚ)).filterMap id = ws.map fun n : ℕ => (n : ℚ) := by
  induction ws with
  | nil => simp
  | cons a t ih => simp [ih]

theorem normalizar_columna_01 (ws : List ℕ)
    (h01 : ∀ n ∈ ws, n = 0 ∨ n = 1) :
    ((0 ∈ ws ∧ 1 ∈ ws) →
      ∀ z ∈ normalizar_columna (ws.map fun n : ℕ => some (n : ℚ)),
        z = some 0 ∨ z = some 100) ∧
    (¬ (0 ∈ ws ∧ 1 ∈ ws) →
      ∀ z ∈ normalizar_columna (ws.map fun n : ℕ => some (n : ℚ)),
        z = some 50) := by
  have hfil := filterMap_id_map_some_cast ws
  constructor
  · rintro ⟨h0, h1⟩ z hz
    have h0q : (0:ℚ) ∈ ws.map fun n : ℕ => (n : ℚ) :=
      List.mem_map.mpr ⟨0, h0, by norm_num⟩
    have h1q : (1:ℚ) ∈ ws.map fun n : ℕ => (n : ℚ) :=
      List.mem_map.mpr ⟨1, h1, by norm_num⟩
    have hne : (ws.map fun n : ℕ => (n : ℚ)) ≠ [] := by
      intro h
      rw [h] at h0q
      simp at h0q
    obtain ⟨mn, hmn⟩ :=
      Option.isSome_iff_exists.mp (minimo_lista_isSome_of_ne_nil hne)
    obtain ⟨mx, hmx⟩ :=
      Option.isSome_iff_exists.mp (maximo_lista_isSome_of_ne_nil hne)
    have hmn0 : mn = 0 := by
      have hle : mn ≤ 0 := minimo_lista_le hmn 0 h0q
      rcases List.mem_map.mp (minimo_lista_mem hmn) with ⟨n, hnw, rfl⟩
      rcases h01 n hnw with rfl | rfl
      · norm_num
      · norm_num at hle
    have hmx1 : mx = 1 := by
      have hle : 1 ≤ mx := le_maximo_lista hmx 1 h1q
      rcases List.mem_map.mp (maximo_lista_mem hmx) with ⟨n, hnw, rfl⟩
      rcases h01 n hnw with rfl | rfl
      · norm_num at hle
      · norm_num
    subst hmn0
    subst hmx1
    unfold normalizar_columna at hz
    rw [hfil, hmn, hmx] at hz
    simp only [] at hz
    rw [if_pos (by norm_num : (0:ℚ) < 1)] at hz
    rcases List.mem_map.mp hz with ⟨o, ho, rfl⟩
    rcases List.mem_map.mp ho with ⟨n, hnw, rfl⟩
    rcases h01 n hnw with rfl | rfl
    · left; norm_num
    · right; norm_num
  · intro hnot z hz
    by_cases hws : ws = []
    · subst hws
      simp [normalizar_columna, minimo_lista] at hz
    · have hne : (ws.map fun n : ℕ => (n : ℚ)) ≠ [] := by
        simpa using hws
      obtain ⟨mn, hmn⟩ :=
        Option.isSome_iff_exists.mp (minimo_lista_isSome_of_ne_nil hne)
      obtain ⟨mx, hmx⟩ :=
        Option.isSome_iff_exists.mp (maximo_lista_isSome_of_ne_nil hne)
      rcases not_and_or.mp hnot with h0not | h1not
      · have htodo : ∀ y ∈ ws.map fun n : ℕ => (n : ℚ), y = 1 := by
          intro y hy
          rcases List.mem_map.mp hy with ⟨n, hnw, rfl⟩
          rcases h01 n hnw with rfl | rfl
          · exact absurd hnw h0not
          · norm_num
        have hmn1 : mn = 1 := htodo mn (minimo_lista_mem hmn)
        have hmx1 : mx = 1 := htodo mx (maximo_lista_mem hmx)
        exact normalizar_columna_constante _ mn mx
          (hfil.symm ▸ hmn) (hfil.symm ▸ hmx) (hmx1.trans hmn1.symm) z hz
      · have htodo : ∀ y ∈ ws.map fun n : ℕ => (n : ℚ), y = 0 := by
          intro y hy
          rcases List.mem_map.mp hy with ⟨n, hnw, rfl⟩
          rcases h01 n hnw with rfl | rfl
          · norm_num
          · exact absurd hnw h1not
        have hmn1 : mn = 0 := htodo mn (minimo_lista_mem hmn)
        have hmx1 : mx = 0 := htodo mx (maximo_lista_mem hmx)
        exact normalizar_columna_constante _ mn mx
          (hfil.symm ▸ hmn) (hfil.symm ▸ hmx) (hmx1.trans hmn1.symm) z hz

/-- C3: an indicator column produced by the encoder is an integer 0/1
column outside the normalizer's exclusion list, so stage 6 rescales it:
wherever such a column sits in the dataset, after normalization its cells
are exactly 0 or 100 when both indicator values occur, and exactly 50
everywhere when the indicator is constant. -/
theorem indicadores_normalizados (nombre : String) (xs : List (Option String))
    (p : String × List ℕ) (d : Dataset) (i : ℕ)
    (hp : p ∈ get_dummies nombre xs)
    (hi : i < d.numCols.length)
    (hcol : d.numCols.getD i default = ⟨p.1, p.2.map fun n : ℕ => some (n : ℚ)⟩)
    (hexcl : ¬ p.1 ∈ excluir_normalizacion) :
    (((normalizar d).numCols.getD i default).vals =
      normalizar_columna (p.2.map fun n : ℕ => some (n : ℚ))) ∧
    ((0 ∈ p.2 ∧ 1 ∈ p.2) →
      ∀ z ∈ ((normalizar d).numCols.getD i default).vals,
        z = some 0 ∨ z = some 100) ∧
    (¬ (0 ∈ p.2 ∧ 1 ∈ p.2) →
      ∀ z ∈ ((normalizar d).numCols.getD i default).vals, z = some 50) := by
  have h01 : ∀ n ∈ p.2, n = 0 ∨ n = 1 := by
    intro n hn
    rcases List.mem_map.mp hp with ⟨v, _, rfl⟩
    rcases List.mem_map.mp hn with ⟨x, _, rfl⟩
    by_cases h : x = some v
    · simp [h]
    · simp [h]
  have hi' : i < (normalizar d).numCols.length := by
    simpa [normalizar] using hi
  have hvals : ((normalizar d).numCols.getD i default).vals =
      normalizar_columna (p.2.map fun n : ℕ => some (n : ℚ)) := by
    rw [List.getD_eq_getElem _ _ hi']
    simp only [normalizar, List.getElem_map]
    rw [List.getD_eq_getElem _ _ hi] at hcol
    rw [hcol]
    simp only []
    rw [if_neg hexcl]
  refine ⟨hvals, ?_, ?_⟩
  · intro hboth z hz
    rw [hvals] at hz
    exact (normalizar_columna_01 p.2 h01).1 hboth z hz
  · intro hnot z hz
    rw [hvals] at hz
    exact (normalizar_columna_01 p.2 h01).2 hnot z hz

/-- Witness for C3: the `pie_L` indicator of the column
`[some "L", some "R"]` takes both values, and normalization maps it to
exactly 0 and 100. -/
theorem indicadores_normalizados_testigo :
    ((normalizar ⟨[⟨"pie_L", [some 1, some 0]⟩], []⟩).numCols.getD 0
      default).vals = normalizar_columna [some 1, some 0] ∧
    (∀ z ∈ ((normalizar ⟨[⟨"pie_L", [some 1, some 0]⟩], []⟩).numCols.getD 0
      default).vals, z = some 0 ∨ z = some 100) := by
  have h := indicadores_normalizados "pie" [some "L", some "R"]
    ("pie_L", [1, 0]) ⟨[⟨"pie_L", [some 1, some 0]⟩], []⟩ 0
    (by decide) (by decide)
    (by norm_num [get_dummies, valores_distintos])
    (by decide)
  refine ⟨?_, fun z hz => h.2.1 (by decide) z ?_⟩
  · have := h.1
    norm_num at this ⊢
    exact this
  · have := h.1
    norm_num at this hz ⊢
    rw [this]
    exact hz

/-! ### Stage 7: IQR outlier clipping -/

/-- The fixed allowlist of key columns (lines 175–177). -/
def columnas_clave : List String :=
  ["overall_rating", "potential", "score_fisico", "score_tecnico",
   "score_mental", "crossing", "finishing", "short_passing",
   "dribbling", "ball_control"]

/-- Stage 7 on one column (lines 183–196): compute Q1, Q3 and the IQR over
the non-null values; when `IQR > 0` count the values outside
`[Q1 - 1.5*IQR, Q3 + 1.5*IQR]` and, if any, clip the column to those bounds
(nulls pass through `clip` unchanged); otherwise leave the column alone.
The result pairs the column with the recorded `outliers_count`.
The `except: continue` never fires on numeric data. -/
def tratar_outliers_col (xs : List (Option ℚ)) : List (Option ℚ) × ℕ :=
  let presentes := xs.filterMap id
  let q1 := cuantil presentes (1/4)
  let q3 := cuantil presentes (3/4)
  let iqr := q3 - q1
  if 0 < iqr then
    let limite_inferior := q1 - 3/2 * iqr
    let limite_superior := q3 + 3/2 * iqr
    let outliers_count :=
      (presentes.filter fun x =>
        decide (x < limite_inferior) || decide (limite_superior < x)).length
    if 0 < outliers_count then
      (xs.map (Option.map fun x =>
        max limite_inferior (min x limite_superior)), outliers_count)
    else (xs, outliers_count)
  else (xs, 0)

/-- Stage 7, whole dataset: only allowlisted columns that are present are
treated; the recorded per-column counts feed the progress log. -/
def tratar_outliers_ds (d : Dataset) : Dataset :=
  ⟨d.numCols.map fun c =>
      if c.name ∈ columnas_clave then
        ⟨c.name, (tratar_outliers_col c.vals).1⟩
      else c,
    d.catCols⟩

/-- C7: writing Q1/Q3 for the two quartiles of a column's non-null values,
stage 7 never changes the number of records; when `Q3 - Q1 > 0` every value
is clipped into `[Q1 - 1.5*IQR, Q3 + 1.5*IQR]` (outside values replaced by
the nearest boundary) and the recorded count is the number of values that
were outside; when the IQR is 0 the column and the count are untouched;
and the stage touches exactly the allowlisted columns. -/
theorem recorte_outliers (xs : List (Option ℚ)) (q1 q3 : ℚ)
    (hq1 : q1 = cuantil (xs.filterMap id) (1/4))
    (hq3 : q3 = cuantil (xs.filterMap id) (3/4)) :
    ((tratar_outliers_col xs).1.length = xs.length) ∧
    (0 < q3 - q1 →
      ((tratar_outliers_col xs).1 =
        xs.map (Option.map fun x =>
          max (q1 - 3/2 * (q3 - q1)) (min x (q3 + 3/2 * (q3 - q1)))) ∧
       (∀ z : ℚ, some z ∈ (tratar_outliers_col xs).1 →
          q1 - 3/2 * (q3 - q1) ≤ z ∧ z ≤ q3 + 3/2 * (q3 - q1)) ∧
       (tratar_outliers_col xs).2 =
         ((xs.filterMap id).filter fun x =>
           decide (x < q1 - 3/2 * (q3 - q1)) ||
             decide (q3 + 3/2 * (q3 - q1) < x)).length)) ∧
    (q3 - q1 = 0 →
      (tratar_outliers_col xs).1 = xs ∧ (tratar_outliers_col xs).2 = 0) ∧
    (∀ (d : Dataset) (i : ℕ), i < d.numCols.length →
      ((d.numCols.getD i default).name ∈ columnas_clave →
        (tratar_outliers_ds d).numCols.getD i default =
          ⟨(d.numCols.getD i default).name,
            (tratar_outliers_col (d.numCols.getD i default).vals).1⟩) ∧
      (¬ (d.numCols.getD i default).name ∈ columnas_clave →
        (tratar_outliers_ds d).numCols.getD i default =
          d.numCols.getD i default)) := by
  have hlo_le_hi : 0 < q3 - q1 →
      q1 - 3/2 * (q3 - q1) ≤ q3 + 3/2 * (q3 - q1) := by
    intro h
    nlinarith
  have hcuerpo : tratar_outliers_col xs =
      if 0 < q3 - q1 then
        if 0 < ((xs.filterMap id).filter fun x =>
            decide (x < q1 - 3/2 * (q3 - q1)) ||
              decide (q3 + 3/2 * (q3 - q1) < x)).length then
          (xs.map (Option.map fun x =>
            max (q1 - 3/2 * (q3 - q1)) (min x (q3 + 3/2 * (q3 - q1)))),
            ((xs.filterMap id).filter fun x =>
              decide (x < q1 - 3/2 * (q3 - q1)) ||
                decide (q3 + 3/2 * (q3 - q1) < x)).length)
        else (xs, ((xs.filterMap id).filter fun x =>
          decide (x < q1 - 3/2 * (q3 - q1)) ||
            decide (q3 + 3/2 * (q3 - q1) < x)).length)
      else (xs, 0) := by
    rw [hq1, hq3]
    rfl
  refine ⟨?_, ?_, ?_, ?_⟩
  · rw [hcuerpo]
    by_cases h1 : 0 < q3 - q1
    · rw [if_pos h1]
      split
      · simp
      · simp
    · rw [if_neg h1]
  · intro hiqr
    rw [hcuerpo, if_pos hiqr]
    by_cases hcnt : 0 < ((xs.filterMap id).filter fun x =>
        decide (x < q1 - 3/2 * (q3 - q1)) ||
          decide (q3 + 3/2 * (q3 - q1) < x)).length
    · rw [if_pos hcnt]
      refine ⟨rfl, ?_, rfl⟩
      intro z hz
      rcases List.mem_map.mp hz with ⟨o, _, hoz⟩
      rcases Option.map_eq_some'.mp hoz with ⟨x, _, rfl⟩
      exact ⟨le_max_left _ _,
        max_le (hlo_le_hi hiqr) (min_le_right _ _)⟩
    · rw [if_neg hcnt]
      have hnil : ((xs.filterMap id).filter fun x =>
          decide (x < q1 - 3/2 * (q3 - q1)) ||
            decide (q3 + 3/2 * (q3 - q1) < x)) = [] := by
        rcases Nat.eq_zero_or_pos _ with h | h
        · exact List.length_eq_zero.mp h
        · exact absurd h hcnt
      have hdentro : ∀ x ∈ xs.filterMap id,
          q1 - 3/2 * (q3 - q1) ≤ x ∧ x ≤ q3 + 3/2 * (q3 - q1) := by
        intro x hx
        have := List.filter_eq_nil_iff.mp hnil x hx
        simp only [Bool.or_eq_true, decide_eq_true_eq, not_or, not_lt] at this
        exact ⟨this.1, this.2⟩
      refine ⟨?_, ?_, rfl⟩
      · symm
        have hcong : xs.map (Option.map fun x =>
            max (q1 - 3/2 * (q3 - q1)) (min x (q3 + 3/2 * (q3 - q1)))) =
            xs.map id := by
          apply List.map_congr_left
          intro o ho
          cases o with
          | none => rfl
          | some x =>
            have hx : x ∈ xs.filterMap id :=
              List.mem_filterMap.mpr ⟨some x, ho, rfl⟩
            obtain ⟨hxl, hxu⟩ := hdentro x hx
            simp only [Option.map_some', id_eq]
            rw [min_eq_left hxu, max_eq_right hxl]
        rw [hcong, List.map_id]
      · intro z hz
        exact hdentro z (List.mem_filterMap.mpr ⟨some z, hz, rfl⟩)
  · intro hiqr
    rw [hcuerpo, hiqr]
    simp
  · intro d i hi
    have hi' : i < (tratar_outliers_ds d).numCols.length := by
      simpa [tratar_outliers_ds] using hi
    constructor
    · intro hmem
      rw [List.getD_eq_getElem _ _ hi']
      simp only [tratar_outliers_ds, List.getElem_map]
      rw [List.getD_eq_getElem _ _ hi] at hmem ⊢
      rw [if_pos hmem]
    · intro hmem
      rw [List.getD_eq_getElem _ _ hi']
      simp only [tratar_outliers_ds, List.getElem_map]
      rw [List.getD_eq_getElem _ _ hi] at hmem ⊢
      rw [if_neg hmem]

/-- Witness for C7: on `[1, 2, 3, 4, 5, 1000]` the quartiles are 9/4 and
19/4, the upper boundary is 19/4 + 1.5*(10/4) = 8.5, the value 1000 is
replaced by 8.5, and the recorded count is 1. -/
theorem recorte_outliers_testigo :
    (tratar_outliers_col
        [some 1, some 2, some 3, some 4, some 5, some 1000]).1 =
      [some 1, some 2, some 3, some 4, some 5, some (17/2 : ℚ)] ∧
    (tratar_outliers_col
        [some 1, some 2, some 3, some 4, some 5, some 1000]).2 = 1 := by
  have h3 : (3:ℤ).toNat = 3 := rfl
  have h1i : (1:ℤ).toNat = 1 := rfl
  have hq1 : (9/4 : ℚ) = cuantil
      (([some 1, some 2, some 3, some 4, some 5,
        some 1000] : List (Option ℚ)).filterMap id) (1/4) := by
    norm_num [cuantil, ordenar, insertar, h1i,
      List.getElem_cons_succ, List.getElem_cons_zero]
  have hq3 : (19/4 : ℚ) = cuantil
      (([some 1, some 2, some 3, some 4, some 5,
        some 1000] : List (Option ℚ)).filterMap id) (3/4) := by
    norm_num [cuantil, ordenar, insertar, h3,
      List.getElem_cons_succ, List.getElem_cons_zero]
  have h := recorte_outliers
    [some 1, some 2, some 3, some 4, some 5, some 1000] (9/4) (19/4) hq1 hq3
  obtain ⟨hmapa, hacot, hcuenta⟩ := h.2.1 (by norm_num)
  constructor
  · rw [hmapa]
    norm_num [min_def, max_def]
  · rw [hcuenta]
    norm_num [List.filterMap_cons, List.filter_cons, List.filter_nil,
      Bool.or_eq_true, decide_eq_true_eq]

/-! ### Stage 4: derived variables -/

def atributos_fisicos : List String :=
  ["acceleration", "sprint_speed", "stamina", "strength"]

def atributos_tecnicos : List String :=
  ["ball_control", "dribbling", "short_passing"]

def atributos_mentales : List String :=
  ["positioning", "vision", "reactions"]

/-- The allowlisted attribute columns present in the current schema
(`[attr for attr in ... if attr in datos.columns]`). -/
def columnas_presentes (d : Dataset) (attrs : List String) : List NumCol :=
  attrs.filterMap fun a => d.numCols.find? fun c => c.name == a

/-- `datos[attrs].mean(axis=1)`: row-wise mean over the non-null cells; a
row with every constituent null yields NaN. -/
def media_filas (cs : List NumCol) (n : ℕ) : List (Option ℚ) :=
  (List.range n).map fun i =>
    let vs := cs.filterMap fun c => c.vals.getD i none
    if vs.isEmpty then none else some (vs.sum / (vs.length : ℚ))

/-- One derived score (lines 103–119): appended only when at least one
constituent attribute column exists. -/
def agregar_score (d : Dataset) (nombre : String) (attrs : List String) :
    Dataset :=
  let presentes := columnas_presentes d attrs
  if presentes.isEmpty then d
  else ⟨d.numCols ++ [⟨nombre, media_filas presentes (nfilas d)⟩], d.catCols⟩

/-- Gregorian leap-year rule. -/
def bisiesto (y : ℕ) : Bool :=
  (y % 4 == 0 && y % 100 != 0) || y % 400 == 0

def dias_mes (y m : ℕ) : ℕ :=
  if m == 2 then (if bisiesto y then 29 else 28)
  else if m == 4 || m == 6 || m == 9 || m == 11 then 30
  else 31

/-- Day number of a Gregorian civil date, relative to 1970-01-01. -/
def dias_desde_civil (y m d : ℕ) : ℤ :=
  let ya := if m ≤ 2 then y - 1 else y
  let era := ya / 400
  let yoe := ya % 400
  let mp := (m + 9) % 12
  let doy := (153 * mp + 2) / 5 + d - 1
  let doe := yoe * 365 + yoe / 4 - yoe / 100 + doy
  (era * 146097 + doe : ℤ) - 719468

/-- `pd.to_datetime(_, errors='coerce')` on this database's date strings
(`"YYYY-MM-DD HH:MM:SS"`, times always midnight): parse the date part to a
day number, `none` (NaT) for an unparseable value. -/
def parsear_fecha (s : String) : Option ℤ :=
  match (s.take 10).splitOn "-" with
  | [ys, ms, ds] =>
    match ys.toNat?, ms.toNat?, ds.toNat? with
    | some y, some m, some dd =>
      if 1 ≤ y ∧ 1 ≤ m ∧ m ≤ 12 ∧ 1 ≤ dd ∧ dd ≤ dias_mes y m then
        some (dias_desde_civil y m dd)
      else none
    | _, _, _ => none
  | _ => none

/-- Stage 4 age (lines 121–129): reference date = maximum of the parsed
`date` column when it exists (the dates of this store parse, so the
uncoerced `pd.to_datetime(datos['date'])` of the source does not raise),
else 2016-01-01; estimated age = day difference / 365.25 (midnight stamps
make `.dt.days` the exact difference), remaining nulls filled with the
column median; without a `birthday` column every record gets the constant
25.  The source also retypes `birthday` to datetime; the column plays no
further role, so the embedding keeps the string column. -/
def agregar_edad (d : Dataset) : Dataset :=
  match d.catCols.find? fun c => c.name == "birthday" with
  | none =>
    ⟨d.numCols ++ [⟨"edad_estimada",
      List.replicate (nfilas d) (some 25)⟩], d.catCols⟩
  | some cb =>
    let referencia : ℤ :=
      match d.catCols.find? fun c => c.name == "date" with
      | some cd =>
        (maximo_lista ((cd.vals.filterMap id).filterMap parsear_fecha)).getD
          (dias_desde_civil 2016 1 1)
      | none => dias_desde_civil 2016 1 1
    let edades := cb.vals.map fun v =>
      (v.bind parsear_fecha).map fun b => ((referencia - b : ℤ) : ℚ) * 4 / 1461
    let m := mediana? (edades.filterMap id)
    ⟨d.numCols ++ [⟨"edad_estimada",
      edades.map fun v => v.orElse fun _ => m⟩], d.catCols⟩

/-! ### Stages 1, 2 and 8: load, merge and save — the pipeline skeleton -/

/-- The two relations stage 1 loads: the full `Player_Attributes` table and
the projection `player_api_id, player_name, birthday` of `Player`
(`player_api_id` is the key of `Player`, so a lookup takes the first
match). -/
structure Entrada where
  player_attributes : Dataset
  player : List (ℚ × Option String × Option String)

/-- Stage 2 merge: `pd.merge(datos, players_info, on='player_api_id',
how='left')` — every attribute row is kept and receives the name and
birthday of its player, or nulls when the id is null or unmatched. -/
def fusionar (e : Entrada) : Dataset :=
  let ids : List (Option ℚ) :=
    ((e.player_attributes.numCols.find? fun c =>
      c.name == "player_api_id").map fun c => c.vals).getD
      (List.replicate (nfilas e.player_attributes) none)
  let busca : Option ℚ → Option (ℚ × Option String × Option String) := fun v =>
    match v with
    | none => none
    | some q => e.player.find? fun j => decide (j.1 = q)
  ⟨e.player_attributes.numCols,
    e.player_attributes.catCols ++
      [⟨"player_name", ids.map fun v => (busca v).bind fun j => j.2.1⟩,
       ⟨"birthday", ids.map fun v => (busca v).bind fun j => j.2.2⟩]⟩

/-- `datos.apply(inferir_posicion, axis=1)`. -/
def etiquetas_posicion (d : Dataset) : List String :=
  (List.range (nfilas d)).map fun i => inferir_posicion (fila d i)

/-- `datos['posicion_inferida'] = ...`: the label column. -/
def agregar_posicion (d : Dataset) : Dataset :=
  ⟨d.numCols,
    d.catCols ++ [⟨"posicion_inferida", (etiquetas_posicion d).map some⟩]⟩

/-- Stages 2–7 composed in source order. -/
def procesar (e : Entrada) : Dataset :=
  let d1 := fusionar e
  let d2 := tratar_nulos (etiquetas_posicion d1) (agregar_posicion d1)
  let d3 := agregar_edad
    (agregar_score
      (agregar_score (agregar_score d2 "score_fisico" atributos_fisicos)
        "score_tecnico" atributos_tecnicos)
      "score_mental" atributos_mentales)
  tratar_outliers_ds (normalizar (aplicar_onehot d3))

/-- What a run leaves behind: the returned dataframe (`None` on any abort)
and whether each output artifact was written. -/
structure Salida where
  datos : Option Dataset
  tabla_escrita : Bool
  csv_escrito : Bool
deriving DecidableEq, Repr

/-- The control-flow skeleton of `limpiar_datos_fifa`: stage 1 sits in a
`try` whose handler prints and `return`s — on a load failure nothing else
runs and nothing is written.  On success the stages run and stage 8 writes
the SQLite table and then the CSV inside one `try`; a failure there prints
and returns `None` after whichever artifact already succeeded. -/
def limpiar_datos_fifa (carga : Except Unit Entrada)
    (escritura_tabla escritura_csv : Bool) : Salida :=
  match carga with
  | .error _ => ⟨none, false, false⟩
  | .ok e =>
    let d := procesar e
    if escritura_tabla then
      if escritura_csv then ⟨some d, true, true⟩
      else ⟨none, true, false⟩
    else ⟨none, false, false⟩

/-- C9: when loading fails, the pipeline aborts at stage 1 — no later stage
runs, no dataframe is returned and neither the SQLite table nor the CSV is
written, whatever the writer would have done. -/
theorem carga_fallida (carga : Except Unit Entrada) (t c : Bool)
    (h : carga = .error ()) :
    limpiar_datos_fifa carga t c = ⟨none, false, false⟩ := by
  subst h
  rfl

/-- Witness for C9 at the concrete failing load. -/
theorem carga_fallida_testigo :
    limpiar_datos_fifa (.error ()) true true = ⟨none, false, false⟩ :=
  carga_fallida (.error ()) true true rfl

end Fifa
